import Mathlib

/-!
Verification of the DERIVA imaging pipeline polling server
(`deriva_imaging_pipeline/server.py`), a shallow embedding of the
claim/execute/report loop `Worker.look_for_work` together with the
`WorkUnit` constructor defaults and the registered row handler
`image_row_job` / `tiff_row_job`.

The remote catalog (`PollingErmrestCatalog`) is an external collaborator:
its behaviour is supplied as a script.  Each `UnitCase` fixes what the
unit's single `state_change_once` call does (raise, or return an etag and
a batch), and each claimed row (`RowCase`) fixes what the handler call
`unit.run_row_job(handler)` and the potential failure-reporting
`catalog.put` call do.  Since `look_for_work` performs each of those
calls at most once, in a fixed order, this scripted environment captures
every possible (even stateful) behaviour of the catalog and handlers.

Exceptions are modelled by `Exc`, covering the `Exception`-derived Python
exceptions that the server's `except` clauses can see:
`WorkerBadDataError`, `WorkerRuntimeError`, and any other `Exception`.
-/

/-- Python exceptions (the `Exception`-derived ones) as seen by
`look_for_work`: the two classified worker errors declared in
`server.py`, and everything else. -/
inductive Exc where
  | workerBadData (msg : String)
  | workerRuntime (msg : String)
  | other (msg : String)
deriving DecidableEq, Repr

/-- `True` for the two classified worker errors (`WorkerBadDataError`,
`WorkerRuntimeError`), `False` for any other exception. -/
def Exc.isClassified : Exc → Bool
  | .workerBadData _ => true
  | .workerRuntime _ => true
  | .other _ => false

/-- A catalog row.  The core reads only the record identifier
`row['RID']`; other fields are carried opaquely. -/
structure Row where
  rid : String
  fields : List (String × String)
deriving DecidableEq, Repr

/-- A JSON payload sent to the catalog, as a field/value association
list (e.g. `{'RID': ..., <status column>: "error"}`). -/
abbrev Payload := List (String × String)

/-- The parts of the server's global JSON `config` that the embedded
code reads. -/
structure Config where
  image_processing_status : String
  original_file_name : String
  get_claimable_url : String
  put_claim_url : String
  put_update_baseurl : String

/-- The `WorkUnit` object of `server.py`: claim/update URLs, the payload
generators, and the cached `idle_etag` token (the row-job handler's
behaviour is scripted per claimed row, see `RowCase`). -/
structure WorkUnit where
  get_claimable_url : String
  put_claim_url : String
  put_update_baseurl : String
  claim_input_data : Row → Payload
  failure_input_data : Row → Exc → Payload
  idle_etag : Option String

/-- Default claim payload from `WorkUnit.__init__`:
`lambda row: {'RID': row['RID'], config['image_processing_status']: "in progress"}`. -/
def default_claim_input_data (config : Config) : Row → Payload :=
  fun row => [("RID", row.rid), (config.image_processing_status, "in progress")]

/-- Default failure payload from `WorkUnit.__init__`:
`lambda row, e: {'RID': row['RID'], config['image_processing_status']: "error"}`. -/
def default_failure_input_data (config : Config) : Row → Exc → Payload :=
  fun row _e => [("RID", row.rid), (config.image_processing_status, "error")]

/-- `WorkUnit.__init__`: stores the three URLs, installs the default
claim/failure payload generators when the caller passes `None`, and
starts with `idle_etag = None`. -/
def WorkUnit.init (config : Config)
    (get_claimable_url put_claim_url put_update_baseurl : String)
    (claim_input_data : Option (Row → Payload))
    (failure_input_data : Option (Row → Exc → Payload)) : WorkUnit where
  get_claimable_url := get_claimable_url
  put_claim_url := put_claim_url
  put_update_baseurl := put_update_baseurl
  claim_input_data :=
    match claim_input_data with
    | none => default_claim_input_data config
    | some f => f
  failure_input_data :=
    match failure_input_data with
    | none => default_failure_input_data config
    | some f => f
  idle_etag := none

/-- Observable side effects of one `look_for_work` cycle, in order:
the `state_change_once` call for a unit (with the etag argument it was
given), the handler invocation for a claimed row, and a
`catalog.put(url, json=payload)` call.  Unit/row indices record which
unit (in registration order) and which batch position each call served. -/
inductive Event where
  | claimCall (unitIdx : Nat) (etag : Option String)
  | handlerCall (unitIdx rowIdx : Nat) (row : Row)
  | putCall (unitIdx : Nat) (url : String) (payload : List Payload)
deriving DecidableEq, Repr

/-- The unit index an event belongs to. -/
def Event.unitIdx : Event → Nat
  | .claimCall u _ => u
  | .handlerCall u _ _ => u
  | .putCall u _ _ => u

/-- Script for one claimed row: the row and its claim acknowledgement as
returned by `state_change_once`, the outcome of the handler call
`unit.run_row_job(handler)` for it, and the outcome of the
failure-reporting `catalog.put` should it be attempted for this row
(`none` = the put returns normally, `some pe` = the put raises `pe`). -/
structure RowCase where
  row : Row
  claimAck : Payload
  handlerResult : Except Exc Unit
  putResult : Option Exc

/-- Script for one unit's `state_change_once` call: either it raises, or
it returns a fresh etag together with the batch of claimed rows. -/
inductive ClaimOutcome where
  | raise (e : Exc)
  | ok (etag : Option String) (batch : List RowCase)

/-- One registered work unit together with the scripted outcome of its
claim attempt in this cycle. -/
structure UnitCase where
  unit : WorkUnit
  claim : ClaimOutcome

/-- Result of the inner `for row, claim in batch` loop: emitted events,
the value of `found_work`, and the exception leaving the loop, if any. -/
structure BatchResult where
  events : List Event
  found : Bool
  exc : Option Exc
deriving Repr

/-- Result of one `look_for_work` cycle: emitted events, the final state
of every registered unit (in order, with its possibly-updated
`idle_etag`), the `found_work` value, and `some e` when the cycle raised
`e` instead of returning. -/
structure CycleResult where
  events : List Event
  units : List WorkUnit
  found : Bool
  exc : Option Exc

/-- The inner loop of `Worker.look_for_work` over one unit's batch:

    for row, claim in batch:
        found_work = True
        try:
            handler = cls(row, unit)
            unit.run_row_job(handler)
        except WorkerBadDataError as e:
            logger.error(...)
            cls.catalog.put(unit.put_claim_url, json=[unit.failure_input_data(row, e)])
        except WorkerRuntimeError as e:
            logger.error(...)
            cls.catalog.put(unit.put_claim_url, json=[unit.failure_input_data(row, e)])
        except Exception as e:
            cls.catalog.put(unit.put_claim_url, json=[unit.failure_input_data(row, e)])
            raise

An exception raised by a `catalog.put` inside an `except` clause is not
caught by the sibling clauses: it leaves the loop. -/
def processBatch (unit : WorkUnit) (unitIdx : Nat) :
    List RowCase → Nat → Bool → BatchResult
  | [], _rowIdx, found => ⟨[], found, none⟩
  | rc :: rest, rowIdx, _found =>
    let found := true
    let hev := Event.handlerCall unitIdx rowIdx rc.row
    match rc.handlerResult with
    | .ok _ =>
      let r := processBatch unit unitIdx rest (rowIdx + 1) found
      ⟨hev :: r.events, r.found, r.exc⟩
    | .error e =>
      let pev := Event.putCall unitIdx unit.put_claim_url
        [unit.failure_input_data rc.row e]
      match e with
      | .workerBadData _ | .workerRuntime _ =>
        match rc.putResult with
        | none =>
          let r := processBatch unit unitIdx rest (rowIdx + 1) found
          ⟨hev :: pev :: r.events, r.found, r.exc⟩
        | some pe => ⟨[hev, pev], found, some pe⟩
      | .other _ =>
        match rc.putResult with
        | none => ⟨[hev, pev], found, some e⟩
        | some pe => ⟨[hev, pev], found, some pe⟩

/-- The outer loop of `Worker.look_for_work` over the registered units:

    for unit in cls.work_units:
        try:
            unit.idle_etag, batch = cls.catalog.state_change_once(
                unit.get_claimable_url, unit.put_claim_url,
                unit.claim_input_data, unit.idle_etag)
        except Exception:
            continue
        for row, claim in batch: ...

When `state_change_once` raises, the tuple assignment never happens, so
`unit.idle_etag` keeps its previous value and the loop continues with
the next unit.  An exception leaving the batch loop propagates out of
`look_for_work`, leaving the remaining units untouched. -/
def processUnits : List UnitCase → Nat → Bool → CycleResult
  | [], _unitIdx, found => ⟨[], [], found, none⟩
  | uc :: rest, unitIdx, found =>
    let cev := Event.claimCall unitIdx uc.unit.idle_etag
    match uc.claim with
    | .raise _ =>
      let r := processUnits rest (unitIdx + 1) found
      ⟨cev :: r.events, uc.unit :: r.units, r.found, r.exc⟩
    | .ok etag batch =>
      let unit := { uc.unit with idle_etag := etag }
      let b := processBatch unit unitIdx batch 0 found
      match b.exc with
      | some e =>
        ⟨cev :: b.events, unit :: rest.map UnitCase.unit, b.found, some e⟩
      | none =>
        let r := processUnits rest (unitIdx + 1) b.found
        ⟨cev :: (b.events ++ r.events), unit :: r.units, r.found, r.exc⟩

/-- `Worker.look_for_work`: one poll cycle over the registered units,
starting with `found_work = False`. -/
def look_for_work (cases : List UnitCase) : CycleResult :=
  processUnits cases 0 false

/-- `tiff_row_job` from `server.py`.  Its `try` block reads
`row['RID']`, builds a `DerivaImagingWorker`, and ends with
`returncode = worker.processImage(rid)`; the scripted argument is that
block's outcome (`.ok rc` = it completed with `returncode = rc`,
`.error e` = some statement of it raised `e`).  `except Exception`
logs and sets `returncode = 1`; then
`if returncode != 0: raise WorkerRuntimeError('Could not execute the worker script')`. -/
def tiff_row_job (tryResult : Except Exc Int) : Except Exc Unit :=
  let returncode : Int :=
    match tryResult with
    | .ok rc => rc
    | .error _ => 1
  if returncode ≠ 0 then
    .error (.workerRuntime "Could not execute the worker script")
  else
    .ok ()

/-- `image_row_job` from `server.py`: delegates to `tiff_row_job`. -/
def image_row_job (tryResult : Except Exc Int) : Except Exc Unit :=
  tiff_row_job tryResult

/-! ### Concrete fixtures used by witnesses and counterexamples -/

/-- A concrete server configuration. -/
def sampleConfig : Config where
  image_processing_status := "Image_Processing_Status"
  original_file_name := "Original_File_Name"
  get_claimable_url := "/claimable"
  put_claim_url := "/claim"
  put_update_baseurl := "/update"

/-- The work unit registered by `main`: default payload generators,
distinct claim and update URLs. -/
def sampleUnit : WorkUnit :=
  WorkUnit.init sampleConfig "/claimable" "/claim" "/update" none none

/-- A concrete claimed row. -/
def sampleRow : Row := ⟨"1-A", []⟩

/-- A second concrete claimed row. -/
def sampleRow2 : Row := ⟨"1-B", []⟩

/-! ### Helper lemmas about the loop semantics -/

/-- Unfolding `processUnits` when the unit's claim call raises: only the
claim-call event is added, the unit is kept with its previous
`idle_etag`, and the remaining units are processed as before. -/
theorem processUnits_raise_step (uc : UnitCase) (rest : List UnitCase)
    (unitIdx : Nat) (found : Bool) (e : Exc)
    (h : uc.claim = ClaimOutcome.raise e) :
    processUnits (uc :: rest) unitIdx found =
      ⟨Event.claimCall unitIdx uc.unit.idle_etag ::
         (processUnits rest (unitIdx + 1) found).events,
       uc.unit :: (processUnits rest (unitIdx + 1) found).units,
       (processUnits rest (unitIdx + 1) found).found,
       (processUnits rest (unitIdx + 1) found).exc⟩ := by
  simp only [processUnits, h]

/-- Unfolding `processUnits` when the claim call returns and the batch
loop raises: the exception propagates and the remaining units are left
untouched. -/
theorem processUnits_abort_step (uc : UnitCase) (rest : List UnitCase)
    (unitIdx : Nat) (found : Bool) (etag : Option String)
    (batch : List RowCase) (e : Exc)
    (h : uc.claim = ClaimOutcome.ok etag batch)
    (hb : (processBatch { uc.unit with idle_etag := etag } unitIdx batch 0 found).exc
            = some e) :
    processUnits (uc :: rest) unitIdx found =
      ⟨Event.claimCall unitIdx uc.unit.idle_etag ::
         (processBatch { uc.unit with idle_etag := etag } unitIdx batch 0 found).events,
       { uc.unit with idle_etag := etag } :: rest.map UnitCase.unit,
       (processBatch { uc.unit with idle_etag := etag } unitIdx batch 0 found).found,
       some e⟩ := by
  simp only [processUnits, h, hb]

/-- Unfolding `processUnits` when the claim call returns and the batch
loop completes normally: the cycle continues with the next unit. -/
theorem processUnits_norm_step (uc : UnitCase) (rest : List UnitCase)
    (unitIdx : Nat) (found : Bool) (etag : Option String) (batch : List RowCase)
    (h : uc.claim = ClaimOutcome.ok etag batch)
    (hb : (processBatch { uc.unit with idle_etag := etag } unitIdx batch 0 found).exc
            = none) :
    processUnits (uc :: rest) unitIdx found =
      ⟨Event.claimCall unitIdx uc.unit.idle_etag ::
         ((processBatch { uc.unit with idle_etag := etag } unitIdx batch 0 found).events ++
          (processUnits rest (unitIdx + 1)
            (processBatch { uc.unit with idle_etag := etag } unitIdx batch 0 found).found).events),
       { uc.unit with idle_etag := etag } ::
         (processUnits rest (unitIdx + 1)
           (processBatch { uc.unit with idle_etag := etag } unitIdx batch 0 found).found).units,
       (processUnits rest (unitIdx + 1)
         (processBatch { uc.unit with idle_etag := etag } unitIdx batch 0 found).found).found,
       (processUnits rest (unitIdx + 1)
         (processBatch { uc.unit with idle_etag := etag } unitIdx batch 0 found).found).exc⟩ := by
  simp only [processUnits, h, hb]

/-- Unfolding `processBatch` when the handler returns normally. -/
theorem processBatch_ok_step (unit : WorkUnit) (unitIdx : Nat) (rc : RowCase)
    (rest : List RowCase) (rowIdx : Nat) (found : Bool)
    (h : rc.handlerResult = Except.ok ()) :
    processBatch unit unitIdx (rc :: rest) rowIdx found =
      ⟨Event.handlerCall unitIdx rowIdx rc.row ::
         (processBatch unit unitIdx rest (rowIdx + 1) true).events,
       (processBatch unit unitIdx rest (rowIdx + 1) true).found,
       (processBatch unit unitIdx rest (rowIdx + 1) true).exc⟩ := by
  simp only [processBatch, h]

/-- Unfolding `processBatch` when the handler raises a classified error
(`WorkerBadDataError` or `WorkerRuntimeError`) and the failure write
returns normally: the failure payload is put to the claim URL and the
loop continues with the next row. -/
theorem processBatch_classified_step (unit : WorkUnit) (unitIdx : Nat) (rc : RowCase)
    (rest : List RowCase) (rowIdx : Nat) (found : Bool) (e : Exc)
    (h1 : rc.handlerResult = Except.error e) (h2 : e.isClassified = true)
    (h3 : rc.putResult = none) :
    processBatch unit unitIdx (rc :: rest) rowIdx found =
      ⟨Event.handlerCall unitIdx rowIdx rc.row ::
         Event.putCall unitIdx unit.put_claim_url [unit.failure_input_data rc.row e] ::
         (processBatch unit unitIdx rest (rowIdx + 1) true).events,
       (processBatch unit unitIdx rest (rowIdx + 1) true).found,
       (processBatch unit unitIdx rest (rowIdx + 1) true).exc⟩ := by
  cases e with
  | workerBadData m => simp only [processBatch, h1, h3]
  | workerRuntime m => simp only [processBatch, h1, h3]
  | other m => simp [Exc.isClassified] at h2

/-- Unfolding `processBatch` when the handler raises a classified error
and the failure write itself raises: the write's exception leaves the
loop and the remaining rows are not processed. -/
theorem processBatch_classified_put_raises_step (unit : WorkUnit) (unitIdx : Nat)
    (rc : RowCase) (rest : List RowCase) (rowIdx : Nat) (found : Bool)
    (e pe : Exc)
    (h1 : rc.handlerResult = Except.error e) (h2 : e.isClassified = true)
    (h3 : rc.putResult = some pe) :
    processBatch unit unitIdx (rc :: rest) rowIdx found =
      ⟨[Event.handlerCall unitIdx rowIdx rc.row,
        Event.putCall unitIdx unit.put_claim_url [unit.failure_input_data rc.row e]],
       true, some pe⟩ := by
  cases e with
  | workerBadData m => simp only [processBatch, h1, h3]
  | workerRuntime m => simp only [processBatch, h1, h3]
  | other m => simp [Exc.isClassified] at h2

/-- Unfolding `processBatch` when the handler raises an unclassified
exception: one failure write is attempted, then the loop is left with
the handler's exception if the write returned normally, and with the
write's exception if the write raised. -/
theorem processBatch_other_step (unit : WorkUnit) (unitIdx : Nat) (rc : RowCase)
    (rest : List RowCase) (rowIdx : Nat) (found : Bool) (m : String)
    (h : rc.handlerResult = Except.error (Exc.other m)) :
    processBatch unit unitIdx (rc :: rest) rowIdx found =
      ⟨[Event.handlerCall unitIdx rowIdx rc.row,
        Event.putCall unitIdx unit.put_claim_url
          [unit.failure_input_data rc.row (Exc.other m)]],
       true, some ((rc.putResult).getD (Exc.other m))⟩ := by
  cases hp : rc.putResult with
  | none => simp only [processBatch, h, hp, Option.getD]
  | some pe => simp only [processBatch, h, hp, Option.getD]

/-- Every event emitted by a batch loop carries that batch's unit index. -/
theorem processBatch_events_unitIdx (unit : WorkUnit) (unitIdx : Nat) :
    ∀ (batch : List RowCase) (rowIdx : Nat) (found : Bool),
      ∀ ev ∈ (processBatch unit unitIdx batch rowIdx found).events,
        ev.unitIdx = unitIdx := by
  intro batch
  induction batch with
  | nil =>
    intro rowIdx found ev hev
    simp [processBatch] at hev
  | cons rc rest ih =>
    intro rowIdx found ev hev
    cases hh : rc.handlerResult with
    | ok u =>
      simp only [processBatch, hh] at hev
      rcases List.mem_cons.mp hev with rfl | hm
      · rfl
      · exact ih (rowIdx + 1) true ev hm
    | error e =>
      cases e with
      | workerBadData m =>
        cases hp : rc.putResult with
        | none =>
          simp only [processBatch, hh, hp] at hev
          rcases List.mem_cons.mp hev with rfl | hm
          · rfl
          rcases List.mem_cons.mp hm with rfl | hm2
          · rfl
          · exact ih (rowIdx + 1) true ev hm2
        | some pe =>
          simp only [processBatch, hh, hp] at hev
          rcases List.mem_cons.mp hev with rfl | hm
          · rfl
          rcases List.mem_cons.mp hm with rfl | hm2
          · rfl
          · exact absurd hm2 (List.not_mem_nil ev)
      | workerRuntime m =>
        cases hp : rc.putResult with
        | none =>
          simp only [processBatch, hh, hp] at hev
          rcases List.mem_cons.mp hev with rfl | hm
          · rfl
          rcases List.mem_cons.mp hm with rfl | hm2
          · rfl
          · exact ih (rowIdx + 1) true ev hm2
        | some pe =>
          simp only [processBatch, hh, hp] at hev
          rcases List.mem_cons.mp hev with rfl | hm
          · rfl
          rcases List.mem_cons.mp hm with rfl | hm2
          · rfl
          · exact absurd hm2 (List.not_mem_nil ev)
      | other m =>
        cases hp : rc.putResult with
        | none =>
          simp only [processBatch, hh, hp] at hev
          rcases List.mem_cons.mp hev with rfl | hm
          · rfl
          rcases List.mem_cons.mp hm with rfl | hm2
          · rfl
          · exact absurd hm2 (List.not_mem_nil ev)
        | some pe =>
          simp only [processBatch, hh, hp] at hev
          rcases List.mem_cons.mp hev with rfl | hm
          · rfl
          rcases List.mem_cons.mp hm with rfl | hm2
          · rfl
          · exact absurd hm2 (List.not_mem_nil ev)

/-- Events emitted while processing units from index `unitIdx` onwards
all carry a unit index at least `unitIdx`. -/
theorem processUnits_events_unitIdx_ge :
    ∀ (cases : List UnitCase) (unitIdx : Nat) (found : Bool),
      ∀ ev ∈ (processUnits cases unitIdx found).events,
        unitIdx ≤ ev.unitIdx := by
  intro cases
  induction cases with
  | nil =>
    intro i f ev hev
    simp [processUnits] at hev
  | cons uc rest ih =>
    intro i f ev hev
    cases hc : uc.claim with
    | raise e =>
      rw [processUnits_raise_step uc rest i f e hc] at hev
      rcases List.mem_cons.mp hev with rfl | hm
      · exact Nat.le_refl _
      · exact Nat.le_of_succ_le (ih (i + 1) f ev hm)
    | ok etag batch =>
      cases hb : (processBatch { uc.unit with idle_etag := etag } i batch 0 f).exc with
      | some e =>
        rw [processUnits_abort_step uc rest i f etag batch e hc hb] at hev
        rcases List.mem_cons.mp hev with rfl | hm
        · exact Nat.le_refl _
        · have hx := processBatch_events_unitIdx { uc.unit with idle_etag := etag }
            i batch 0 f ev hm
          omega
      | none =>
        rw [processUnits_norm_step uc rest i f etag batch hc hb] at hev
        rcases List.mem_cons.mp hev with rfl | hm
        · exact Nat.le_refl _
        rcases List.mem_append.mp hm with h1 | h2
        · have hx := processBatch_events_unitIdx { uc.unit with idle_etag := etag }
            i batch 0 f ev h1
          omega
        · exact Nat.le_of_succ_le (ih (i + 1) _ ev h2)

/-- The inner loop leaves `found_work` true exactly when it was already
true or the batch was nonempty (`found_work = True` is executed at the
top of every iteration, before the handler can raise). -/
theorem processBatch_found_iff (unit : WorkUnit) (unitIdx : Nat) :
    ∀ (batch : List RowCase) (rowIdx : Nat) (found : Bool),
      ((processBatch unit unitIdx batch rowIdx found).found = true ↔
        found = true ∨ batch ≠ []) := by
  intro batch
  induction batch with
  | nil =>
    intro rowIdx found
    simp [processBatch]
  | cons rc rest ih =>
    intro rowIdx found
    cases hh : rc.handlerResult with
    | ok u =>
      rw [processBatch_ok_step unit unitIdx rc rest rowIdx found hh]
      simp [ih (rowIdx + 1) true]
    | error e =>
      cases e with
      | workerBadData m =>
        cases hp : rc.putResult with
        | none =>
          rw [processBatch_classified_step unit unitIdx rc rest rowIdx found _ hh rfl hp]
          simp [ih (rowIdx + 1) true]
        | some pe =>
          rw [processBatch_classified_put_raises_step unit unitIdx rc rest rowIdx found
            _ pe hh rfl hp]
          simp
      | workerRuntime m =>
        cases hp : rc.putResult with
        | none =>
          rw [processBatch_classified_step unit unitIdx rc rest rowIdx found _ hh rfl hp]
          simp [ih (rowIdx + 1) true]
        | some pe =>
          rw [processBatch_classified_put_raises_step unit unitIdx rc rest rowIdx found
            _ pe hh rfl hp]
          simp
      | other m =>
        rw [processBatch_other_step unit unitIdx rc rest rowIdx found m hh]
        simp

/-- When a cycle suffix returns without raising, its `found_work` result
is true exactly when the accumulator was already true or some unit in
the suffix had its claim call return a nonempty batch. -/
theorem processUnits_found_iff :
    ∀ (cases : List UnitCase) (unitIdx : Nat) (found : Bool),
      (processUnits cases unitIdx found).exc = none →
      ((processUnits cases unitIdx found).found = true ↔
        found = true ∨ ∃ uc ∈ cases, ∃ etag batch,
          uc.claim = ClaimOutcome.ok etag batch ∧ batch ≠ []) := by
  intro cases
  induction cases with
  | nil =>
    intro i f _h
    simp [processUnits]
  | cons uc rest ih =>
    intro i f h
    cases hc : uc.claim with
    | raise e =>
      rw [processUnits_raise_step uc rest i f e hc] at h ⊢
      rw [ih (i + 1) f h]
      simp [List.mem_cons, exists_eq_or_imp, hc]
    | ok etag batch =>
      cases hb : (processBatch { uc.unit with idle_etag := etag } i batch 0 f).exc with
      | some e =>
        rw [processUnits_abort_step uc rest i f etag batch e hc hb] at h
        simp at h
      | none =>
        rw [processUnits_norm_step uc rest i f etag batch hc hb] at h ⊢
        rw [ih (i + 1) _ h]
        rw [processBatch_found_iff { uc.unit with idle_etag := etag } i batch 0 f]
        simp only [List.mem_cons, exists_eq_or_imp, hc]
        constructor
        · rintro ((hf | hne) | hex)
          · exact Or.inl hf
          · exact Or.inr (Or.inl ⟨etag, batch, rfl, hne⟩)
          · exact Or.inr (Or.inr hex)
        · rintro (hf | ⟨etag2, batch2, heq, hne⟩ | hex)
          · exact Or.inl (Or.inl hf)
          · cases heq
            exact Or.inl (Or.inr hne)
          · exact Or.inr hex

/-! ### C1 -/

/-- C1: when a unit's conditional claim call (`state_change_once`)
raises, `look_for_work` does not propagate the exception from that unit:
the unit's cached `idle_etag` keeps exactly its previous value, no
failure write (indeed no put at all) is performed for that unit, and the
cycle continues with the next registered unit exactly as it would have
been processed anyway. -/
theorem C1_store_error_skips_unit (uc : UnitCase) (rest : List UnitCase)
    (unitIdx : Nat) (found : Bool) (e : Exc)
    (h : uc.claim = ClaimOutcome.raise e) :
    processUnits (uc :: rest) unitIdx found =
      ⟨Event.claimCall unitIdx uc.unit.idle_etag ::
         (processUnits rest (unitIdx + 1) found).events,
       uc.unit :: (processUnits rest (unitIdx + 1) found).units,
       (processUnits rest (unitIdx + 1) found).found,
       (processUnits rest (unitIdx + 1) found).exc⟩
    ∧ ∀ url pl,
        Event.putCall unitIdx url pl ∉ (processUnits (uc :: rest) unitIdx found).events := by
  refine ⟨processUnits_raise_step uc rest unitIdx found e h, ?_⟩
  intro url pl hmem
  rw [processUnits_raise_step uc rest unitIdx found e h] at hmem
  rcases List.mem_cons.mp hmem with hc | hm
  · exact Event.noConfusion hc
  · have hx := processUnits_events_unitIdx_ge rest (unitIdx + 1) found _ hm
    simp [Event.unitIdx] at hx

/-- Witness for C1 at a concrete input: one broken unit followed by
nothing; the claim raise is skipped, the etag `"t0"` is retained and no
put is performed. -/
theorem C1_store_error_skips_unit_witness :
    (UnitCase.mk { sampleUnit with idle_etag := some "t0" }
        (ClaimOutcome.raise (Exc.other "network"))).claim
      = ClaimOutcome.raise (Exc.other "network")
    ∧ (processUnits [UnitCase.mk { sampleUnit with idle_etag := some "t0" }
          (ClaimOutcome.raise (Exc.other "network"))] 0 false =
        ⟨Event.claimCall 0 ({ sampleUnit with idle_etag := some "t0" } : WorkUnit).idle_etag ::
           (processUnits [] 1 false).events,
         { sampleUnit with idle_etag := some "t0" } :: (processUnits [] 1 false).units,
         (processUnits [] 1 false).found,
         (processUnits [] 1 false).exc⟩
       ∧ ∀ url pl,
           Event.putCall 0 url pl ∉
             (processUnits [UnitCase.mk { sampleUnit with idle_etag := some "t0" }
               (ClaimOutcome.raise (Exc.other "network"))] 0 false).events) :=
  ⟨rfl, C1_store_error_skips_unit
    (UnitCase.mk { sampleUnit with idle_etag := some "t0" }
      (ClaimOutcome.raise (Exc.other "network"))) [] 0 false (Exc.other "network") rfl⟩

/-! ### C4 -/

/-- C4 counterexample: the claim says a claim-call error invalidates the
unit's cached token to `None`; in the code the tuple assignment
`unit.idle_etag, batch = ...` never happens when `state_change_once`
raises, so the token keeps its previous value `"t0"`, which is not
`None`. -/
theorem C4_counterexample_token_not_nulled :
    ((look_for_work [UnitCase.mk { sampleUnit with idle_etag := some "t0" }
        (ClaimOutcome.raise (Exc.other "boom"))]).units.map WorkUnit.idle_etag)
      = [some "t0"]
    ∧ (some "t0" : Option String) ≠ none :=
  ⟨rfl, by decide⟩

/-- C4 amended: on a claim error the unit's cached token is retained
unchanged (the whole unit object is unchanged), not invalidated to
`None`. -/
theorem C4_token_retained_on_claim_error (uc : UnitCase) (rest : List UnitCase)
    (unitIdx : Nat) (found : Bool) (e : Exc)
    (h : uc.claim = ClaimOutcome.raise e) :
    (processUnits (uc :: rest) unitIdx found).units.head? = some uc.unit := by
  rw [processUnits_raise_step uc rest unitIdx found e h]
  rfl

/-- Witness for the amended C4 at a concrete input. -/
theorem C4_token_retained_on_claim_error_witness :
    (UnitCase.mk { sampleUnit with idle_etag := some "t4" }
        (ClaimOutcome.raise (Exc.workerRuntime "auth"))).claim
      = ClaimOutcome.raise (Exc.workerRuntime "auth")
    ∧ (processUnits [UnitCase.mk { sampleUnit with idle_etag := some "t4" }
          (ClaimOutcome.raise (Exc.workerRuntime "auth"))] 0 false).units.head?
        = some { sampleUnit with idle_etag := some "t4" } :=
  ⟨rfl, C4_token_retained_on_claim_error
    (UnitCase.mk { sampleUnit with idle_etag := some "t4" }
      (ClaimOutcome.raise (Exc.workerRuntime "auth"))) [] 0 false
    (Exc.workerRuntime "auth") rfl⟩

/-! ### C7 -/

/-- C7: whenever the conditional claim call returns normally, the unit's
cached token is set to the etag value it returned — also when the batch
is empty, and also when a later handler error aborts the batch. -/
theorem C7_token_updated_on_success (uc : UnitCase) (rest : List UnitCase)
    (unitIdx : Nat) (found : Bool) (etag : Option String) (batch : List RowCase)
    (h : uc.claim = ClaimOutcome.ok etag batch) :
    (processUnits (uc :: rest) unitIdx found).units.head? =
      some { uc.unit with idle_etag := etag } := by
  cases hb : (processBatch { uc.unit with idle_etag := etag } unitIdx batch 0 found).exc with
  | some e =>
    rw [processUnits_abort_step uc rest unitIdx found etag batch e h hb]
    rfl
  | none =>
    rw [processUnits_norm_step uc rest unitIdx found etag batch h hb]
    rfl

/-- Witness for C7 at a concrete input with an empty batch: the token is
updated to `"t1"` even though nothing was claimed. -/
theorem C7_token_updated_on_success_witness :
    (UnitCase.mk sampleUnit (ClaimOutcome.ok (some "t1") [])).claim
      = ClaimOutcome.ok (some "t1") []
    ∧ (processUnits [UnitCase.mk sampleUnit (ClaimOutcome.ok (some "t1") [])]
          0 false).units.head?
        = some { sampleUnit with idle_etag := some "t1" } :=
  ⟨rfl, C7_token_updated_on_success
    (UnitCase.mk sampleUnit (ClaimOutcome.ok (some "t1") [])) [] 0 false
    (some "t1") [] rfl⟩

/-! ### C3 -/

/-- A cycle with one unit whose single claimed row fails with
`WorkerBadDataError`; the failure write returns normally. -/
def badDataScenario : List UnitCase :=
  [⟨sampleUnit, ClaimOutcome.ok (some "t2")
     [⟨sampleRow, [("RID", "1-A")], Except.error (Exc.workerBadData "bad field"), none⟩]⟩]

/-- C3 counterexample: the failure payload for a row that raised
`WorkerBadDataError` is put to the unit's claim URL `"/claim"`
(`put_claim_url`), not to its update target `"/update"`
(`put_update_baseurl`): the only put of the cycle targets `"/claim"`,
and no put to `"/update"` occurs, refuting the claim that the write goes
to `put_update_baseurl`. -/
theorem C3_counterexample_write_goes_to_claim_url :
    (look_for_work badDataScenario).events =
      [Event.claimCall 0 none, Event.handlerCall 0 0 sampleRow,
       Event.putCall 0 "/claim" [[("RID", "1-A"), ("Image_Processing_Status", "error")]]]
    ∧ Event.putCall 0 "/update" [[("RID", "1-A"), ("Image_Processing_Status", "error")]]
        ∉ (look_for_work badDataScenario).events
    ∧ sampleUnit.put_update_baseurl = "/update" :=
  ⟨rfl, by decide, rfl⟩

/-- C3 amended: for every claimed row whose handler raises a classified
error (`WorkerBadDataError` or `WorkerRuntimeError`), the failure
payload `failure_input_data(row, error)` is put to the unit's claim
endpoint `put_claim_url` — and every put `look_for_work` ever performs
for a unit's batch targets that unit's `put_claim_url`, so in particular
none targets `put_update_baseurl` unless the two URLs coincide. -/
theorem C3_failure_write_targets_claim_url :
    (∀ (unit : WorkUnit) (unitIdx : Nat) (rc : RowCase) (rest : List RowCase)
        (rowIdx : Nat) (found : Bool) (e : Exc),
      rc.handlerResult = Except.error e → e.isClassified = true →
      Event.putCall unitIdx unit.put_claim_url [unit.failure_input_data rc.row e]
        ∈ (processBatch unit unitIdx (rc :: rest) rowIdx found).events)
    ∧ (∀ (unit : WorkUnit) (unitIdx : Nat) (batch : List RowCase) (rowIdx : Nat)
        (found : Bool) (u : Nat) (url : String) (pl : List Payload),
      Event.putCall u url pl ∈ (processBatch unit unitIdx batch rowIdx found).events →
      url = unit.put_claim_url ∧ u = unitIdx) := by
  constructor
  · intro unit unitIdx rc rest rowIdx found e h1 h2
    cases hp : rc.putResult with
    | none =>
      rw [processBatch_classified_step unit unitIdx rc rest rowIdx found e h1 h2 hp]
      exact List.mem_cons_of_mem _ (List.mem_cons_self _ _)
    | some pe =>
      rw [processBatch_classified_put_raises_step unit unitIdx rc rest rowIdx found
        e pe h1 h2 hp]
      exact List.mem_cons_of_mem _ (List.mem_cons_self _ _)
  · intro unit unitIdx batch
    induction batch with
    | nil =>
      intro rowIdx found u url pl hmem
      simp [processBatch] at hmem
    | cons rc rest ih =>
      intro rowIdx found u url pl hmem
      cases hh : rc.handlerResult with
      | ok uv =>
        rw [processBatch_ok_step unit unitIdx rc rest rowIdx found hh] at hmem
        rcases List.mem_cons.mp hmem with hc | hm
        · exact Event.noConfusion hc
        · exact ih (rowIdx + 1) true u url pl hm
      | error e =>
        cases hcl : e.isClassified with
        | true =>
          cases hp : rc.putResult with
          | none =>
            rw [processBatch_classified_step unit unitIdx rc rest rowIdx found
              e hh hcl hp] at hmem
            rcases List.mem_cons.mp hmem with hc | hm
            · exact Event.noConfusion hc
            rcases List.mem_cons.mp hm with hc2 | hm2
            · injection hc2 with h1 h2 h3
              exact ⟨h2, h1⟩
            · exact ih (rowIdx + 1) true u url pl hm2
          | some pe =>
            rw [processBatch_classified_put_raises_step unit unitIdx rc rest rowIdx found
              e pe hh hcl hp] at hmem
            rcases List.mem_cons.mp hmem with hc | hm
            · exact Event.noConfusion hc
            rcases List.mem_cons.mp hm with hc2 | hm2
            · injection hc2 with h1 h2 h3
              exact ⟨h2, h1⟩
            · exact absurd hm2 (List.not_mem_nil _)
        | false =>
          cases e with
          | workerBadData m => simp [Exc.isClassified] at hcl
          | workerRuntime m => simp [Exc.isClassified] at hcl
          | other m =>
            rw [processBatch_other_step unit unitIdx rc rest rowIdx found m hh] at hmem
            rcases List.mem_cons.mp hmem with hc | hm
            · exact Event.noConfusion hc
            rcases List.mem_cons.mp hm with hc2 | hm2
            · injection hc2 with h1 h2 h3
              exact ⟨h2, h1⟩
            · exact absurd hm2 (List.not_mem_nil _)

/-- Witness for the amended C3 at concrete inputs: a runtime-error row
produces a put of the failure payload to `"/claim"`, and a put found in
a batch trace targets the unit's claim URL. -/
theorem C3_failure_write_targets_claim_url_witness :
    (RowCase.mk sampleRow [] (Except.error (Exc.workerRuntime "tool crash")) none).handlerResult
      = Except.error (Exc.workerRuntime "tool crash")
    ∧ (Exc.workerRuntime "tool crash").isClassified = true
    ∧ Event.putCall 0 sampleUnit.put_claim_url
        [sampleUnit.failure_input_data sampleRow (Exc.workerRuntime "tool crash")]
        ∈ (processBatch sampleUnit 0
            [RowCase.mk sampleRow [] (Except.error (Exc.workerRuntime "tool crash")) none]
            0 false).events
    ∧ ("/claim" : String) = sampleUnit.put_claim_url ∧ (0 : Nat) = 0 :=
  ⟨rfl, rfl,
   C3_failure_write_targets_claim_url.1 sampleUnit 0
     (RowCase.mk sampleRow [] (Except.error (Exc.workerRuntime "tool crash")) none)
     [] 0 false (Exc.workerRuntime "tool crash") rfl rfl,
   C3_failure_write_targets_claim_url.2 sampleUnit 0
     [RowCase.mk sampleRow [] (Except.error (Exc.workerRuntime "tool crash")) none]
     0 false 0 "/claim"
     [sampleUnit.failure_input_data sampleRow (Exc.workerRuntime "tool crash")]
     (by decide)⟩

/-! ### C5 -/

/-- A cycle with one unit and two claimed rows: the first row's handler
raises `WorkerRuntimeError` and its failure write raises; the second
row's handler would have returned normally. -/
def putFailScenario : List UnitCase :=
  [⟨sampleUnit, ClaimOutcome.ok (some "t5")
     [⟨sampleRow, [], Except.error (Exc.workerRuntime "tool exited 1"),
        some (Exc.other "proxy 502")⟩,
      ⟨sampleRow2, [], Except.ok (), none⟩]⟩]

/-- C5 counterexample: a `WorkerRuntimeError` on the row at position 0
does not always let the row at position 1 be processed — when the
failure write for row 0 itself raises, the write's exception leaves
`look_for_work` and row 1's handler is never invoked, refuting the claim
as universally stated. -/
theorem C5_counterexample_put_error_stops_batch :
    (look_for_work putFailScenario).events =
      [Event.claimCall 0 none, Event.handlerCall 0 0 sampleRow,
       Event.putCall 0 "/claim" [[("RID", "1-A"), ("Image_Processing_Status", "error")]]]
    ∧ (look_for_work putFailScenario).exc = some (Exc.other "proxy 502")
    ∧ Event.handlerCall 0 1 sampleRow2 ∉ (look_for_work putFailScenario).events :=
  ⟨rfl, rfl, by decide⟩

/-- C5 amended: if the handler for the row at position `i` raises
`WorkerBadDataError` or `WorkerRuntimeError` and the failure write for
that row returns normally, the error does not leave the batch loop and
processing continues with the row at position `i + 1`, after the failure
payload has been put for row `i`. -/
theorem C5_classified_error_continues_batch (unit : WorkUnit) (unitIdx : Nat)
    (rc : RowCase) (rest : List RowCase) (rowIdx : Nat) (found : Bool) (e : Exc)
    (h1 : rc.handlerResult = Except.error e) (h2 : e.isClassified = true)
    (h3 : rc.putResult = none) :
    processBatch unit unitIdx (rc :: rest) rowIdx found =
      ⟨Event.handlerCall unitIdx rowIdx rc.row ::
         Event.putCall unitIdx unit.put_claim_url [unit.failure_input_data rc.row e] ::
         (processBatch unit unitIdx rest (rowIdx + 1) true).events,
       (processBatch unit unitIdx rest (rowIdx + 1) true).found,
       (processBatch unit unitIdx rest (rowIdx + 1) true).exc⟩ :=
  processBatch_classified_step unit unitIdx rc rest rowIdx found e h1 h2 h3

/-- Witness for the amended C5 at a concrete input: a bad-data row whose
failure write succeeds is followed by the processing of the next row. -/
theorem C5_classified_error_continues_batch_witness :
    (RowCase.mk sampleRow [] (Except.error (Exc.workerBadData "missing file")) none).handlerResult
      = Except.error (Exc.workerBadData "missing file")
    ∧ (Exc.workerBadData "missing file").isClassified = true
    ∧ (RowCase.mk sampleRow [] (Except.error (Exc.workerBadData "missing file")) none).putResult
      = none
    ∧ processBatch sampleUnit 0
        [RowCase.mk sampleRow [] (Except.error (Exc.workerBadData "missing file")) none,
         RowCase.mk sampleRow2 [] (Except.ok ()) none] 0 false =
      ⟨Event.handlerCall 0 0 sampleRow ::
         Event.putCall 0 sampleUnit.put_claim_url
           [sampleUnit.failure_input_data sampleRow (Exc.workerBadData "missing file")] ::
         (processBatch sampleUnit 0 [RowCase.mk sampleRow2 [] (Except.ok ()) none]
           1 true).events,
       (processBatch sampleUnit 0 [RowCase.mk sampleRow2 [] (Except.ok ()) none]
         1 true).found,
       (processBatch sampleUnit 0 [RowCase.mk sampleRow2 [] (Except.ok ()) none]
         1 true).exc⟩ :=
  ⟨rfl, rfl, rfl,
   C5_classified_error_continues_batch sampleUnit 0
     (RowCase.mk sampleRow [] (Except.error (Exc.workerBadData "missing file")) none)
     [RowCase.mk sampleRow2 [] (Except.ok ()) none] 0 false
     (Exc.workerBadData "missing file") rfl rfl rfl⟩

/-! ### C6 -/

/-- A cycle with two units: the first unit's single claimed row raises
`WorkerBadDataError` and its failure write raises; the second unit has a
perfectly processable row. -/
def putFailTwoUnits : List UnitCase :=
  [⟨sampleUnit, ClaimOutcome.ok (some "t6")
     [⟨sampleRow, [], Except.error (Exc.workerBadData "corrupt header"),
        some (Exc.other "disk full")⟩]⟩,
   ⟨sampleUnit, ClaimOutcome.ok (some "t7") [⟨sampleRow2, [], Except.ok (), none⟩]⟩]

/-- C6 counterexample: an error raised by the failure-reporting
`catalog.put` is not swallowed — it propagates out of `look_for_work`
(the cycle raises `"disk full"` instead of returning), and the second
unit is never visited (no claim call with index 1 occurs), refuting the
claim that write errors are logged and never escalated. -/
theorem C6_counterexample_put_error_escalates :
    (look_for_work putFailTwoUnits).exc = some (Exc.other "disk full")
    ∧ (some (Exc.other "disk full") : Option Exc) ≠ none
    ∧ (look_for_work putFailTwoUnits).events =
        [Event.claimCall 0 none, Event.handlerCall 0 0 sampleRow,
         Event.putCall 0 "/claim" [[("RID", "1-A"), ("Image_Processing_Status", "error")]]]
    ∧ Event.claimCall 1 sampleUnit.idle_etag ∉ (look_for_work putFailTwoUnits).events :=
  ⟨rfl, by decide, rfl, by decide⟩

/-- C6 amended: there is no handling around the failure-reporting puts
in `look_for_work` — when such a put raises, its exception leaves the
batch loop at once (no further rows) and propagates out of the cycle,
leaving every subsequent unit unvisited and unchanged. -/
theorem C6_put_error_propagates :
    (∀ (unit : WorkUnit) (unitIdx : Nat) (rc : RowCase) (rest : List RowCase)
        (rowIdx : Nat) (found : Bool) (e pe : Exc),
      rc.handlerResult = Except.error e → e.isClassified = true →
      rc.putResult = some pe →
      processBatch unit unitIdx (rc :: rest) rowIdx found =
        ⟨[Event.handlerCall unitIdx rowIdx rc.row,
          Event.putCall unitIdx unit.put_claim_url [unit.failure_input_data rc.row e]],
         true, some pe⟩)
    ∧ (∀ (uc : UnitCase) (rest : List UnitCase) (unitIdx : Nat) (found : Bool)
        (etag : Option String) (batch : List RowCase) (e : Exc),
      uc.claim = ClaimOutcome.ok etag batch →
      (processBatch { uc.unit with idle_etag := etag } unitIdx batch 0 found).exc = some e →
      processUnits (uc :: rest) unitIdx found =
        ⟨Event.claimCall unitIdx uc.unit.idle_etag ::
           (processBatch { uc.unit with idle_etag := etag } unitIdx batch 0 found).events,
         { uc.unit with idle_etag := etag } :: rest.map UnitCase.unit,
         (processBatch { uc.unit with idle_etag := etag } unitIdx batch 0 found).found,
         some e⟩) :=
  ⟨fun unit unitIdx rc rest rowIdx found e pe h1 h2 h3 =>
      processBatch_classified_put_raises_step unit unitIdx rc rest rowIdx found e pe h1 h2 h3,
   fun uc rest unitIdx found etag batch e h hb =>
      processUnits_abort_step uc rest unitIdx found etag batch e h hb⟩

/-- Witness for the amended C6 at concrete inputs: a failing failure
write aborts the batch with the write's exception, and a unit whose
batch aborted makes the whole cycle raise while the remaining units stay
untouched. -/
theorem C6_put_error_propagates_witness :
    (RowCase.mk sampleRow [] (Except.error (Exc.workerBadData "corrupt header"))
        (some (Exc.other "disk full"))).handlerResult
      = Except.error (Exc.workerBadData "corrupt header")
    ∧ (Exc.workerBadData "corrupt header").isClassified = true
    ∧ (RowCase.mk sampleRow [] (Except.error (Exc.workerBadData "corrupt header"))
        (some (Exc.other "disk full"))).putResult = some (Exc.other "disk full")
    ∧ processBatch sampleUnit 0
        [RowCase.mk sampleRow [] (Except.error (Exc.workerBadData "corrupt header"))
          (some (Exc.other "disk full"))] 0 false =
      ⟨[Event.handlerCall 0 0 sampleRow,
        Event.putCall 0 sampleUnit.put_claim_url
          [sampleUnit.failure_input_data sampleRow (Exc.workerBadData "corrupt header")]],
       true, some (Exc.other "disk full")⟩
    ∧ processUnits putFailTwoUnits 0 false =
      ⟨Event.claimCall 0 sampleUnit.idle_etag ::
         (processBatch { sampleUnit with idle_etag := some "t6" } 0
           [RowCase.mk sampleRow [] (Except.error (Exc.workerBadData "corrupt header"))
             (some (Exc.other "disk full"))] 0 false).events,
       { sampleUnit with idle_etag := some "t6" } ::
         [⟨sampleUnit, ClaimOutcome.ok (some "t7")
            [⟨sampleRow2, [], Except.ok (), none⟩]⟩].map UnitCase.unit,
       (processBatch { sampleUnit with idle_etag := some "t6" } 0
         [RowCase.mk sampleRow [] (Except.error (Exc.workerBadData "corrupt header"))
           (some (Exc.other "disk full"))] 0 false).found,
       some (Exc.other "disk full")⟩ :=
  ⟨rfl, rfl, rfl,
   C6_put_error_propagates.1 sampleUnit 0
     (RowCase.mk sampleRow [] (Except.error (Exc.workerBadData "corrupt header"))
       (some (Exc.other "disk full")))
     [] 0 false (Exc.workerBadData "corrupt header") (Exc.other "disk full") rfl rfl rfl,
   C6_put_error_propagates.2
     ⟨sampleUnit, ClaimOutcome.ok (some "t6")
       [RowCase.mk sampleRow [] (Except.error (Exc.workerBadData "corrupt header"))
         (some (Exc.other "disk full"))]⟩
     [⟨sampleUnit, ClaimOutcome.ok (some "t7") [⟨sampleRow2, [], Except.ok (), none⟩]⟩]
     0 false (some "t6")
     [RowCase.mk sampleRow [] (Except.error (Exc.workerBadData "corrupt header"))
       (some (Exc.other "disk full"))]
     (Exc.other "disk full") rfl rfl⟩

/-! ### C2 -/

/-- A cycle with one unit whose single claimed row raises an
unclassified exception, and whose failure write also raises. -/
def unclassifiedPutFailScenario : List UnitCase :=
  [⟨sampleUnit, ClaimOutcome.ok (some "t8")
     [⟨sampleRow, [], Except.error (Exc.other "assertion failed"),
        some (Exc.other "conn reset")⟩]⟩]

/-- C2 counterexample: when the handler raises an unclassified exception
and the failure-reporting put itself raises, the exception leaving
`look_for_work` is the put's (`"conn reset"`), not the handler's
(`"assertion failed"`) — so the claim that the handler's exception is
re-raised does not hold for every such row. -/
theorem C2_counterexample_put_error_replaces_exception :
    (look_for_work unclassifiedPutFailScenario).exc = some (Exc.other "conn reset")
    ∧ (look_for_work unclassifiedPutFailScenario).exc ≠ some (Exc.other "assertion failed") :=
  ⟨rfl, by decide⟩

/-- C2 amended: when a row's handler raises an unclassified exception,
exactly one failure-payload put is attempted for that row and the batch
loop is left at once with an exception — the handler's own exception if
the put returned normally, the put's exception otherwise; the abort then
propagates out of `look_for_work`, so no further rows of that batch and
no subsequent units are processed in that cycle. -/
theorem C2_unclassified_error_aborts_cycle :
    (∀ (unit : WorkUnit) (unitIdx : Nat) (rc : RowCase) (rest : List RowCase)
        (rowIdx : Nat) (found : Bool) (m : String),
      rc.handlerResult = Except.error (Exc.other m) →
      processBatch unit unitIdx (rc :: rest) rowIdx found =
        ⟨[Event.handlerCall unitIdx rowIdx rc.row,
          Event.putCall unitIdx unit.put_claim_url
            [unit.failure_input_data rc.row (Exc.other m)]],
         true, some ((rc.putResult).getD (Exc.other m))⟩)
    ∧ (∀ (uc : UnitCase) (rest : List UnitCase) (unitIdx : Nat) (found : Bool)
        (etag : Option String) (batch : List RowCase) (e : Exc),
      uc.claim = ClaimOutcome.ok etag batch →
      (processBatch { uc.unit with idle_etag := etag } unitIdx batch 0 found).exc = some e →
      processUnits (uc :: rest) unitIdx found =
        ⟨Event.claimCall unitIdx uc.unit.idle_etag ::
           (processBatch { uc.unit with idle_etag := etag } unitIdx batch 0 found).events,
         { uc.unit with idle_etag := etag } :: rest.map UnitCase.unit,
         (processBatch { uc.unit with idle_etag := etag } unitIdx batch 0 found).found,
         some e⟩) :=
  ⟨fun unit unitIdx rc rest rowIdx found m h =>
      processBatch_other_step unit unitIdx rc rest rowIdx found m h,
   fun uc rest unitIdx found etag batch e h hb =>
      processUnits_abort_step uc rest unitIdx found etag batch e h hb⟩

/-- Witness for the amended C2 at concrete inputs: an unclassified
handler error whose failure write succeeds aborts the batch with the
handler's exception, and the abort propagates out of the cycle. -/
theorem C2_unclassified_error_aborts_cycle_witness :
    (RowCase.mk sampleRow [] (Except.error (Exc.other "unexpected state")) none).handlerResult
      = Except.error (Exc.other "unexpected state")
    ∧ processBatch sampleUnit 0
        [RowCase.mk sampleRow [] (Except.error (Exc.other "unexpected state")) none,
         RowCase.mk sampleRow2 [] (Except.ok ()) none] 0 false =
      ⟨[Event.handlerCall 0 0 sampleRow,
        Event.putCall 0 sampleUnit.put_claim_url
          [sampleUnit.failure_input_data sampleRow (Exc.other "unexpected state")]],
       true,
       some (((RowCase.mk sampleRow []
         (Except.error (Exc.other "unexpected state")) none).putResult).getD
           (Exc.other "unexpected state"))⟩
    ∧ (UnitCase.mk sampleUnit (ClaimOutcome.ok (some "t3")
        [RowCase.mk sampleRow [] (Except.error (Exc.other "unexpected state")) none])).claim
      = ClaimOutcome.ok (some "t3")
          [RowCase.mk sampleRow [] (Except.error (Exc.other "unexpected state")) none]
    ∧ (processBatch { sampleUnit with idle_etag := some "t3" } 0
        [RowCase.mk sampleRow [] (Except.error (Exc.other "unexpected state")) none]
        0 false).exc = some (Exc.other "unexpected state")
    ∧ processUnits [UnitCase.mk sampleUnit (ClaimOutcome.ok (some "t3")
        [RowCase.mk sampleRow [] (Except.error (Exc.other "unexpected state")) none])]
        0 false =
      ⟨Event.claimCall 0 sampleUnit.idle_etag ::
         (processBatch { sampleUnit with idle_etag := some "t3" } 0
           [RowCase.mk sampleRow [] (Except.error (Exc.other "unexpected state")) none]
           0 false).events,
       { sampleUnit with idle_etag := some "t3" } :: ([] : List UnitCase).map UnitCase.unit,
       (processBatch { sampleUnit with idle_etag := some "t3" } 0
         [RowCase.mk sampleRow [] (Except.error (Exc.other "unexpected state")) none]
         0 false).found,
       some (Exc.other "unexpected state")⟩ :=
  ⟨rfl,
   C2_unclassified_error_aborts_cycle.1 sampleUnit 0
     (RowCase.mk sampleRow [] (Except.error (Exc.other "unexpected state")) none)
     [RowCase.mk sampleRow2 [] (Except.ok ()) none] 0 false "unexpected state" rfl,
   rfl, rfl,
   C2_unclassified_error_aborts_cycle.2
     (UnitCase.mk sampleUnit (ClaimOutcome.ok (some "t3")
       [RowCase.mk sampleRow [] (Except.error (Exc.other "unexpected state")) none]))
     [] 0 false (some "t3")
     [RowCase.mk sampleRow [] (Except.error (Exc.other "unexpected state")) none]
     (Exc.other "unexpected state") rfl rfl⟩

/-! ### C8 -/

/-- C8: whenever `look_for_work` returns normally (no exception
propagated), it returns `True` exactly when at least one unit's claim
call returned a nonempty batch in that cycle; if every unit's claim
returns an empty batch or raises, it returns `False`. -/
theorem C8_found_work_iff_nonempty_batch (cases : List UnitCase)
    (h : (look_for_work cases).exc = none) :
    ((look_for_work cases).found = true ↔
      ∃ uc ∈ cases, ∃ etag batch,
        uc.claim = ClaimOutcome.ok etag batch ∧ batch ≠ []) := by
  have hx := processUnits_found_iff cases 0 false h
  simpa [look_for_work] using hx

/-- A cycle with one healthy unit claiming one row whose handler
returns normally. -/
def happyScenario : List UnitCase :=
  [⟨sampleUnit, ClaimOutcome.ok (some "t9") [⟨sampleRow, [], Except.ok (), none⟩]⟩]

/-- Witness for C8 at a concrete input: a normally-returning cycle whose
single unit claimed one row. -/
theorem C8_found_work_iff_nonempty_batch_witness :
    (look_for_work happyScenario).exc = none
    ∧ ((look_for_work happyScenario).found = true ↔
        ∃ uc ∈ happyScenario, ∃ etag batch,
          uc.claim = ClaimOutcome.ok etag batch ∧ batch ≠ []) :=
  ⟨rfl, C8_found_work_iff_nonempty_batch happyScenario rfl⟩

/-! ### C9 -/

/-- C9: a `WorkUnit` constructed without explicit claim/failure payload
generators uses the defaults, which produce for any row a payload
carrying the row's RID together with the configured status field set to
`"in progress"` for claims and to `"error"` for failures. -/
theorem C9_default_payload_generators (config : Config)
    (g p u : String) (row : Row) (e : Exc) :
    ((WorkUnit.init config g p u none none).claim_input_data row =
        [("RID", row.rid), (config.image_processing_status, "in progress")])
    ∧ ((WorkUnit.init config g p u none none).failure_input_data row e =
        [("RID", row.rid), (config.image_processing_status, "error")]) :=
  ⟨rfl, rfl⟩

/-! ### C10 -/

/-- C10: the registered image handler (`image_row_job`, delegating to
`tiff_row_job`) raises neither `WorkerBadDataError` nor any unclassified
exception: whatever its internal `try` block does, the handler returns
normally exactly when `processImage` completed with return code 0, and
in every other case (nonzero return code, or any exception inside the
`try` block) it raises `WorkerRuntimeError` — so only the runtime-error
branch of `look_for_work`'s row handling is reachable for this unit. -/
theorem C10_image_handler_classification (r : Except Exc Int) :
    (image_row_job r = Except.ok () ↔ r = Except.ok 0)
    ∧ (image_row_job r = Except.ok () ∨
        image_row_job r =
          Except.error (Exc.workerRuntime "Could not execute the worker script")) := by
  cases r with
  | ok rc =>
    by_cases h : rc = 0
    · subst h
      simp [image_row_job, tiff_row_job]
    · simp [image_row_job, tiff_row_job, h]
  | error e =>
    simp [image_row_job, tiff_row_job]
